import Mathlib

/-!
Shallow embedding of the gravity-sandbox simulation engine
(`object.go`, the `World` file, and the constants of `main.go`).

Modelling conventions:
* Go `float64` values are embedded as real numbers; `math.Sqrt` is `Real.sqrt`.
* Go `int` is embedded as `ℤ`.  The expression `int(math.Sqrt(float64(n)))`
  applied to a non-negative integer `n` in the machine range equals `⌊√n⌋`,
  which we write `Nat.sqrt n.toNat` (the argument is always a sum of squares,
  hence non-negative).
* Go pointer identity (`*Object`, compared with `==` and used by
  `RemoveObject`) is modelled by an `id : ℕ` field; `AddObject` hands out
  fresh ids from a `nextId` counter, modelling the allocator.
* In-place mutation is modelled by explicit state passing: each method
  returns the updated object(s) / world.
-/

namespace Gravity

/-- main.go: `const screenWidth = 1600`. -/
def screenWidth : ℝ := 1600

/-- main.go: `const screenHeight = 1200`. -/
def screenHeight : ℝ := 1200

/-- main.go: `const gravitationalConstant = 0.005`. -/
def gravitationalConstant : ℝ := 0.005

/-- main.go: `const screenBounceEfficiency = 0.5`. -/
def screenBounceEfficiency : ℝ := 0.5

/-- main.go: `const softeningParameter = 10.0`. -/
def softeningParameter : ℝ := 10.0

/-- world file: `const cullDistance = 5000`. -/
def cullDistance : ℝ := 5000

/-- Go conversion `int(x)` of a `float64`: truncation toward zero. -/
noncomputable def goInt (x : ℝ) : ℤ := if 0 ≤ x then ⌊x⌋ else -⌊-x⌋

/-- object.go: `type Object struct`.  Field defaults are the Go zero values
(a composite literal zeroes unmentioned fields).  `id` models the pointer
identity of the Go `*Object`. -/
structure Object where
  id : ℕ
  x : ℝ := 0
  y : ℝ := 0
  radius : ℤ := 0
  mass : ℝ := 0
  velocityX : ℝ := 0
  velocityY : ℝ := 0
  ax : ℝ := 0
  ay : ℝ := 0
  bouncedFrames : ℤ := 0
  pinned : Bool := false
  color : ℕ × ℕ × ℕ := (0, 0, 0)
  angle : ℝ := 0
  angularVelocity : ℝ := 0
  mergeTimer : ℝ := 0
  mergeRadius : ℝ := 0
  mergeFlash : ℝ := 0

/-- world file: `type Ejecta struct`. -/
structure Ejecta where
  x : ℝ := 0
  y : ℝ := 0
  vx : ℝ := 0
  vy : ℝ := 0
  life : ℝ := 0
  size : ℝ := 0

/-- object.go `CalculateAcceleration`: gravitational acceleration from all
other objects (with softening).  The Go loop `for _, obj := range objects`
accumulating into `ax, ay` is a left fold; the pointer test `obj == o`
is the id test. -/
noncomputable def CalculateAcceleration (o : Object) (objects : List Object) : ℝ × ℝ :=
  let softSq := softeningParameter * softeningParameter
  objects.foldl (fun acc obj =>
    if obj.id = o.id then acc
    else
      let dx := obj.x - o.x
      let dy := obj.y - o.y
      let distSq := dx * dx + dy * dy + softSq
      let sizeAdj := obj.mass / o.mass
      (acc.1 + gravitationalConstant * sizeAdj * dx / distSq,
       acc.2 + gravitationalConstant * sizeAdj * dy / distSq)) (0, 0)

/-- object.go `UpdatePositionVerlet`: `x += v*dt + 0.5*a*dt²` with dt = 1. -/
def UpdatePositionVerlet (o : Object) : Object :=
  { o with x := o.x + o.velocityX + 0.5 * o.ax
           y := o.y + o.velocityY + 0.5 * o.ay }

/-- object.go `UpdateVelocityVerlet`: `v += 0.5*(a_old + a_new)*dt`, then the
cached acceleration is replaced. -/
def UpdateVelocityVerlet (o : Object) (newAX newAY : ℝ) : Object :=
  { o with velocityX := o.velocityX + 0.5 * (o.ax + newAX)
           velocityY := o.velocityY + 0.5 * (o.ay + newAY)
           ax := newAX
           ay := newAY }

/-- object.go `BounceOnScreenCollision`. -/
noncomputable def BounceOnScreenCollision (o : Object) : Object :=
  let o1 :=
    if (o.x - (o.radius : ℝ) < 0 ∧ o.velocityX < 0) ∨
       (o.x + (o.radius : ℝ) > screenWidth ∧ o.velocityX > 0) then
      { o with velocityX := -o.velocityX * screenBounceEfficiency }
    else o
  if (o1.y - (o1.radius : ℝ) < 0 ∧ o1.velocityY < 0) ∨
     (o1.y + (o1.radius : ℝ) > screenHeight ∧ o1.velocityY > 0) then
    { o1 with velocityY := -o1.velocityY * screenBounceEfficiency }
  else o1

/-- object.go `CollideWith`: checks collision with another object, separates
overlap, and applies impulse.  Returns the updated pair together with the
Go return value (true if a merge should happen).  The Go early return
`if distance >= minDist { return false }` is the first branch. -/
noncomputable def CollideWith (o obj : Object) (restitution : ℝ) (merge : Bool) :
    Object × Object × Bool :=
  let dx := obj.x - o.x
  let dy := obj.y - o.y
  let distSq := dx * dx + dy * dy
  let distance0 := Real.sqrt distSq
  let minDist : ℝ := ((o.radius + obj.radius : ℤ) : ℝ)
  if distance0 ≥ minDist then (o, obj, false)
  else
    let distance := if distance0 < 0.001 then 0.001 else distance0
    let normalX := dx / distance
    let normalY := dy / distance
    let overlap := minDist - distance
    let totalMass := o.mass + obj.mass
    let sep : Object × Object :=
      if o.pinned then
        (o, { obj with x := obj.x + normalX * overlap, y := obj.y + normalY * overlap })
      else if obj.pinned then
        ({ o with x := o.x - normalX * overlap, y := o.y - normalY * overlap }, obj)
      else
        ({ o with x := o.x - normalX * overlap * (obj.mass / totalMass)
                  y := o.y - normalY * overlap * (obj.mass / totalMass) },
         { obj with x := obj.x + normalX * overlap * (o.mass / totalMass)
                    y := obj.y + normalY * overlap * (o.mass / totalMass) })
    let o1 := sep.1
    let obj1 := sep.2
    if merge ∧ ¬o.pinned ∧ ¬obj.pinned then (o1, obj1, true)
    else
      let myProj := o1.velocityX * normalX + o1.velocityY * normalY
      let objProj := obj1.velocityX * normalX + obj1.velocityY * normalY
      if o.pinned then
        (o1,
         { obj1 with
             velocityX := obj1.velocityX + -(1 + restitution) * (objProj - myProj) * normalX
             velocityY := obj1.velocityY + -(1 + restitution) * (objProj - myProj) * normalY },
         false)
      else if obj.pinned then
        ({ o1 with
             velocityX := o1.velocityX + -(1 + restitution) * (myProj - objProj) * normalX
             velocityY := o1.velocityY + -(1 + restitution) * (myProj - objProj) * normalY },
         obj1, false)
      else
        let impulse := (1 + restitution) * (myProj - objProj) / totalMass
        ({ o1 with velocityX := o1.velocityX - impulse * obj.mass * normalX
                   velocityY := o1.velocityY - impulse * obj.mass * normalY },
         { obj1 with velocityX := obj1.velocityX + impulse * o.mass * normalX
                     velocityY := obj1.velocityY + impulse * o.mass * normalY },
         false)

/-- object.go `UpdateRotation`: advances angle by angular velocity and decays
the merge animation. -/
noncomputable def UpdateRotation (o : Object) : Object :=
  let o1 := { o with angle := o.angle + o.angularVelocity }
  let o2 : Object :=
    if o1.mergeTimer > 0 then
      let t := o1.mergeTimer - 0.015
      { o1 with mergeTimer := if t < 0 then 0 else t
                mergeRadius := o1.mergeRadius + 5.0 }
    else o1
  if o2.mergeFlash > 0 then
    let f := o2.mergeFlash - 0.03
    { o2 with mergeFlash := if f < 0 then 0 else f }
  else o2

/-- object.go `MergeFrom`: absorbs another object, conserving linear and
angular momentum about the pair's centre of mass.  The new radius is the Go
`int(math.Sqrt(float64(o.radius*o.radius + obj.radius*obj.radius)))`, i.e.
the integer square root of the (non-negative) sum of squared radii, clamped
below at 1; the new mass is recomputed as `newRadius * newRadius`. -/
noncomputable def MergeFrom (o obj : Object) : Object :=
  let newMass := o.mass + obj.mass
  let newVX := (o.mass * o.velocityX + obj.mass * obj.velocityX) / newMass
  let newVY := (o.mass * o.velocityY + obj.mass * obj.velocityY) / newMass
  let cx := (o.mass * o.x + obj.mass * obj.x) / newMass
  let cy := (o.mass * o.y + obj.mass * obj.y) / newMass
  let r1x := o.x - cx
  let r1y := o.y - cy
  let r2x := obj.x - cx
  let r2y := obj.y - cy
  let u1x := o.velocityX - newVX
  let u1y := o.velocityY - newVY
  let u2x := obj.velocityX - newVX
  let u2y := obj.velocityY - newVY
  let lOrbital := o.mass * (r1x * u1y - r1y * u1x) + obj.mass * (r2x * u2y - r2y * u2x)
  let i1 := 0.5 * o.mass * ((o.radius * o.radius : ℤ) : ℝ)
  let i2 := 0.5 * obj.mass * ((obj.radius * obj.radius : ℤ) : ℝ)
  let lSpin := i1 * o.angularVelocity + i2 * obj.angularVelocity
  let lTotal := lOrbital + lSpin
  let newRadius0 : ℤ := (Nat.sqrt (o.radius * o.radius + obj.radius * obj.radius).toNat : ℤ)
  let newRadius := if newRadius0 < 1 then 1 else newRadius0
  let iNew := 0.5 * newMass * ((newRadius * newRadius : ℤ) : ℝ)
  { o with x := cx
           y := cy
           velocityX := newVX
           velocityY := newVY
           radius := newRadius
           mass := ((newRadius * newRadius : ℤ) : ℝ)
           angularVelocity := if iNew > 0 then lTotal / iNew else o.angularVelocity
           mergeTimer := 1.0
           mergeRadius := (newRadius : ℝ)
           mergeFlash := 1.0 }

/-- world file: `type World struct`.  Field defaults are the Go zero values.
`nextId` models the allocator handing out a distinct address to every
`AddObject`. -/
structure World where
  objects : List Object := []
  ejecta : List Ejecta := []
  bounceOnScreenCollision : Bool := false
  bounceOnParticleCollision : Bool := false
  mergeOnCollision : Bool := false
  frictionEnabled : Bool := false
  frictionCoeff : ℝ := 0
  restitution : ℝ := 0
  nextId : ℕ := 0

/-- world file `defaultParticleColor`: round-robin palette of 8 colors. -/
def defaultParticleColor (index : ℕ) : ℕ × ℕ × ℕ :=
  let colors : List (ℕ × ℕ × ℕ) :=
    [(255, 255, 255), (100, 180, 255), (255, 130, 100), (130, 255, 130),
     (255, 220, 100), (200, 140, 255), (255, 160, 200), (100, 255, 220)]
  colors.getD (index % colors.length) (0, 0, 0)

/-- world file `newWorld`. -/
def newWorld : World :=
  { objects := []
    bounceOnScreenCollision := false
    bounceOnParticleCollision := true
    frictionCoeff := 0.001
    restitution := 0.8 }

/-- world file `AddObject`: appends a new body with mass `radius * radius`;
returns the updated world and the created body (the Go function returns the
pointer). -/
def AddObject (w : World) (x y : ℝ) (radius : ℤ) : World × Object :=
  let obj : Object :=
    { id := w.nextId
      x := x
      y := y
      radius := radius
      mass := ((radius * radius : ℤ) : ℝ)
      color := defaultParticleColor w.objects.length }
  ({ w with objects := w.objects ++ [obj], nextId := w.nextId + 1 }, obj)

/-- The loop body of world file `RemoveObject`: drop the first element whose
identity (pointer, modelled by id) matches; no-op when absent. -/
def removeFirstId : List Object → ℕ → List Object
  | [], _ => []
  | o :: rest, i => if o.id = i then rest else o :: removeFirstId rest i

/-- world file `RemoveObject`.  The Go comparison `o == obj` is pointer
identity, modelled by the id field. -/
def RemoveObject (w : World) (obj : Object) : World :=
  { w with objects := removeFirstId w.objects obj.id }

/-- The scan loop of world file `FindObject`: return the first body whose
squared distance to the query point (the Go variable is named `dist` but
holds the square) is below the squared threshold. -/
noncomputable def findLoop (wx wy r : ℝ) : List Object → Option Object
  | [] => none
  | o :: rest =>
    let dx := o.x - wx
    let dy := o.y - wy
    let dist := dx * dx + dy * dy
    let threshold := r + (o.radius : ℝ)
    if dist < threshold * threshold then some o else findLoop wx wy r rest

/-- world file `FindObject`. -/
noncomputable def FindObject (w : World) (wx wy : ℝ) (radius : ℤ) : Option Object :=
  findLoop wx wy (radius : ℝ) w.objects

/-- world file `SpawnEjecta`: clamp the count at 16, then emit `count`
particles in a radial fan (the Go loop `for i := 0; i < count; i++` runs
`count.toNat` times, zero times for a non-positive count). -/
noncomputable def SpawnEjecta (w : World) (x y speed : ℝ) (count : ℤ) : World :=
  let count := if count > 16 then 16 else count
  { w with ejecta := w.ejecta ++ (List.range count.toNat).map (fun (i : ℕ) =>
      let angle := 2 * Real.pi * (i : ℝ) / ((count : ℤ) : ℝ)
      let jitter : ℕ := (i * 7 + 3) % 10
      let sizeJitter : ℕ := i % 3
      let s := speed * (0.5 + 0.8 * (jitter : ℝ) / 10.0)
      { x := x
        y := y
        vx := Real.cos angle * s
        vy := Real.sin angle * s
        life := 1.0
        size := 2.0 + (sizeJitter : ℝ) }) }

/-- One iteration of the inner pair loop of world file `handleCollisions`:
collide the objects at positions `i` and `j`, write back the mutated pair,
and on a merge fold `obj` into `o`, spawn the ejecta burst and record `obj`
for deferred removal.  Out-of-range indices (never reached from
`handleCollisions`) leave the state unchanged. -/
noncomputable def pairStep (restitution : ℝ) (merge : Bool)
    (s : World × List Object) (i j : ℕ) : World × List Object :=
  match s.1.objects[i]?, s.1.objects[j]? with
  | some o, some obj =>
    let res := CollideWith o obj restitution merge
    let o1 := res.1
    let obj1 := res.2.1
    let shouldMerge := res.2.2
    let objs := (s.1.objects.set i o1).set j obj1
    if shouldMerge then
      let speed := Real.sqrt
          ((o1.velocityX - obj1.velocityX) * (o1.velocityX - obj1.velocityX) +
           (o1.velocityY - obj1.velocityY) * (o1.velocityY - obj1.velocityY)) + 1.0
      let mx := (o1.x + obj1.x) / 2
      let my := (o1.y + obj1.y) / 2
      let merged := MergeFrom o1 obj1
      (SpawnEjecta { s.1 with objects := objs.set i merged } mx my speed (8 + goInt speed),
       s.2 ++ [obj1])
    else
      ({ s.1 with objects := objs }, s.2)
  | _, _ => s

/-- The double scan loop of world file `handleCollisions`, threading the
world and the deferred `toRemove` list.  The Go loops run `i` from 0 and
`j` from `i+1`, each while `< len(w.objects)`; since `pairStep` preserves
the length of the object list (proved below), iterating over the initial
index ranges is the same traversal. -/
noncomputable def collisionScan (restitution : ℝ) (merge : Bool) (w : World) :
    World × List Object :=
  let n := w.objects.length
  (List.range n).foldl (fun s i =>
    (List.range' (i + 1) (n - (i + 1))).foldl (fun s j => pairStep restitution merge s i j) s)
    (w, [])

/-- world file `handleCollisions`: scan all pairs, collecting bodies to
remove, then apply the removals after the full scan. -/
noncomputable def handleCollisions (w : World) : World :=
  let s := collisionScan w.restitution w.mergeOnCollision w
  s.2.foldl RemoveObject s.1

/-- One iteration of world file `updateEjecta`: advance, drag, age. -/
def updateEjectaOne (e : Ejecta) : Ejecta :=
  { x := e.x + e.vx
    y := e.y + e.vy
    vx := e.vx * 0.97
    vy := e.vy * 0.97
    life := e.life - 0.015
    size := e.size }

/-- world file `updateEjecta`: update every particle in place, keeping (in
order) exactly those with positive remaining life. -/
noncomputable def updateEjecta (w : World) : World :=
  { w with ejecta := (w.ejecta.map updateEjectaOne).filter (fun e => decide (e.life > 0)) }

/-- world file `cullDistantObjects`: collect every non-pinned body farther
than `cullDistance` from the screen centre, then remove them. -/
noncomputable def cullDistantObjects (w : World) : World :=
  let cx := screenWidth / 2
  let cy := screenHeight / 2
  let toRemove := w.objects.filter (fun o =>
    !o.pinned && decide ((o.x - cx) * (o.x - cx) + (o.y - cy) * (o.y - cy) >
      cullDistance * cullDistance))
  toRemove.foldl RemoveObject w

/-- world file `StepPhysics`: one tick of Velocity Verlet integration,
collisions, optional screen bounce, distance culling, rotation/merge
animation, and ejecta aging — in source order.  The Go loops `continue` on
pinned bodies so those are returned unchanged; phase 2 reads the positions
written by phase 1 (the Go code mutates the shared slice in place). -/
noncomputable def StepPhysics (w : World) : World :=
  let objs1 := w.objects.map (fun o => if o.pinned then o else UpdatePositionVerlet o)
  let newAccels := objs1.map (fun o =>
    if o.pinned then ((0 : ℝ), (0 : ℝ)) else CalculateAcceleration o objs1)
  let objs2 := List.zipWith (fun (o : Object) (a : ℝ × ℝ) =>
    if o.pinned then o
    else
      let o1 := UpdateVelocityVerlet o a.1 a.2
      if w.frictionEnabled then
        { o1 with velocityX := o1.velocityX * (1 - w.frictionCoeff)
                  velocityY := o1.velocityY * (1 - w.frictionCoeff) }
      else o1) objs1 newAccels
  let w1 := { w with objects := objs2 }
  let w2 := if w1.bounceOnParticleCollision || w1.mergeOnCollision then handleCollisions w1 else w1
  let w3 : World :=
    if w2.bounceOnScreenCollision then
      { w2 with objects := w2.objects.map (fun o => if o.pinned then o else BounceOnScreenCollision o) }
    else w2
  let w4 := cullDistantObjects w3
  let w5 := { w4 with objects := w4.objects.map UpdateRotation }
  updateEjecta w5

/-! ### Concrete example bodies used by witnesses and counterexamples -/

/-- A unit body (radius 1, mass 1) moving right at unit speed. -/
def oU1 : Object := { id := 0, radius := 1, mass := 1, velocityX := 1 }

/-- A unit body (radius 1, mass 1) at rest at the same spot. -/
def oU2 : Object := { id := 1, radius := 1, mass := 1 }

/-! ### C1: merged radius and mass -/

/-- C1 (amended): the merged radius is the integer square root
`⌊√(r_i² + r_j²)⌋` of the sum of squared radii (the clamp at 1 never fires
for radii ≥ 1), hence `r_new² ≤ r_i² + r_j² < (r_new + 1)²`; the merge is
exactly mass-conserving only when `r_i² + r_j²` is a perfect square. -/
theorem mergeFrom_radius_floor_sqrt (o obj : Object)
    (h1 : 1 ≤ o.radius) (h2 : 1 ≤ obj.radius) :
    (MergeFrom o obj).radius =
      (Nat.sqrt (o.radius * o.radius + obj.radius * obj.radius).toNat : ℤ) ∧
    (MergeFrom o obj).radius * (MergeFrom o obj).radius ≤
      o.radius * o.radius + obj.radius * obj.radius ∧
    o.radius * o.radius + obj.radius * obj.radius <
      ((MergeFrom o obj).radius + 1) * ((MergeFrom o obj).radius + 1) := by
  have hsum : (0 : ℤ) ≤ o.radius * o.radius + obj.radius * obj.radius :=
    add_nonneg (mul_self_nonneg _) (mul_self_nonneg _)
  have hcast : ((o.radius * o.radius + obj.radius * obj.radius).toNat : ℤ) =
      o.radius * o.radius + obj.radius * obj.radius := Int.toNat_of_nonneg hsum
  have h2n : 2 ≤ (o.radius * o.radius + obj.radius * obj.radius).toNat := by
    have h2z : (2 : ℤ) ≤ o.radius * o.radius + obj.radius * obj.radius := by nlinarith
    omega
  have hge : 1 ≤ Nat.sqrt (o.radius * o.radius + obj.radius * obj.radius).toNat :=
    Nat.le_sqrt.mpr (by omega)
  have hradius : (MergeFrom o obj).radius =
      (Nat.sqrt (o.radius * o.radius + obj.radius * obj.radius).toNat : ℤ) := by
    have hnot : ¬ ((Nat.sqrt (o.radius * o.radius + obj.radius * obj.radius).toNat : ℤ) < 1) := by
      omega
    simp only [MergeFrom]
    rw [if_neg hnot]
  refine ⟨hradius, ?_, ?_⟩
  · rw [hradius, ← hcast]
    exact_mod_cast Nat.sqrt_le _
  · rw [hradius, ← hcast]
    exact_mod_cast Nat.lt_succ_sqrt _


/-- C1 witness: for radii 1 and 1 the theorem applies and the merged radius
is `Nat.sqrt 2 = 1`. -/
theorem mergeFrom_radius_floor_sqrt_witness :
    (1 ≤ oU1.radius ∧ 1 ≤ oU2.radius) ∧
    ((MergeFrom oU1 oU2).radius =
      (Nat.sqrt (oU1.radius * oU1.radius + oU2.radius * oU2.radius).toNat : ℤ) ∧
    (MergeFrom oU1 oU2).radius * (MergeFrom oU1 oU2).radius ≤
      oU1.radius * oU1.radius + oU2.radius * oU2.radius ∧
    oU1.radius * oU1.radius + oU2.radius * oU2.radius <
      ((MergeFrom oU1 oU2).radius + 1) * ((MergeFrom oU1 oU2).radius + 1)) :=
  ⟨⟨by norm_num [oU1], by norm_num [oU2]⟩,
   mergeFrom_radius_floor_sqrt oU1 oU2 (by norm_num [oU1]) (by norm_num [oU2])⟩

/-- C1 counterexample: merging two radius-1 bodies gives radius
`int(sqrt 2) = 1`, so `r_new² = 1 ≠ 2 = r_i² + r_j²` and the merged mass 1
differs from the pre-merge mass sum 2: the merge is not exactly
mass-conserving. -/
theorem mergeFrom_mass_not_conserved_cex :
    (MergeFrom oU1 oU2).radius * (MergeFrom oU1 oU2).radius ≠
      oU1.radius * oU1.radius + oU2.radius * oU2.radius ∧
    (MergeFrom oU1 oU2).mass ≠ oU1.mass + oU2.mass := by
  constructor
  · simp [MergeFrom, oU1, oU2]
    norm_num
  · simp [MergeFrom, oU1, oU2]
    norm_num

/-! ### C9: merged mass is recomputed from the merged radius -/

/-- C9: after every merge the survivor's mass is exactly the square of its
new integer radius, and that radius is at least 1.  In particular a
caller-overridden mass is discarded: the post-merge mass depends only on
the new radius. -/
theorem mergeFrom_mass_eq_radius_sq (o obj : Object) :
    (MergeFrom o obj).mass =
      ((MergeFrom o obj).radius : ℝ) * ((MergeFrom o obj).radius : ℝ) ∧
    1 ≤ (MergeFrom o obj).radius := by
  constructor
  · simp only [MergeFrom]
    push_cast
    ring
  · simp only [MergeFrom]
    split
    · exact le_refl 1
    · omega

/-! ### C3: the softened, self-mass-dividing acceleration formula -/

/-- The accumulating loop of `CalculateAcceleration`, for any starting
accumulator, adds exactly the sum of the per-body softened-gravity
contributions of every body with a different identity. -/
lemma calcAccel_fold (o : Object) : ∀ (l : List Object) (a : ℝ × ℝ),
    (l.foldl (fun acc obj =>
        if obj.id = o.id then acc
        else
          (acc.1 + gravitationalConstant * (obj.mass / o.mass) * (obj.x - o.x) /
              ((obj.x - o.x) * (obj.x - o.x) + (obj.y - o.y) * (obj.y - o.y) +
               softeningParameter * softeningParameter),
           acc.2 + gravitationalConstant * (obj.mass / o.mass) * (obj.y - o.y) /
              ((obj.x - o.x) * (obj.x - o.x) + (obj.y - o.y) * (obj.y - o.y) +
               softeningParameter * softeningParameter))) a)
      = (a.1 + ((l.filter (fun j => j.id ≠ o.id)).map (fun j =>
            gravitationalConstant * (j.mass / o.mass) * (j.x - o.x) /
              ((j.x - o.x) * (j.x - o.x) + (j.y - o.y) * (j.y - o.y) +
               softeningParameter * softeningParameter))).sum,
         a.2 + ((l.filter (fun j => j.id ≠ o.id)).map (fun j =>
            gravitationalConstant * (j.mass / o.mass) * (j.y - o.y) /
              ((j.x - o.x) * (j.x - o.x) + (j.y - o.y) * (j.y - o.y) +
               softeningParameter * softeningParameter))).sum)
  | [], a => by simp
  | j :: t, a => by
    by_cases h : j.id = o.id
    · rw [List.foldl_cons, if_pos h, calcAccel_fold o t a]
      simp [List.filter_cons, h]
    · rw [List.foldl_cons, if_neg h, calcAccel_fold o t]
      simp only [List.filter_cons, h, decide_not, decide_False, Bool.not_false, if_true,
        List.map_cons, List.sum_cons, Prod.mk.injEq]
      constructor <;> ring

/-- C3: for every body, the recomputed acceleration is the sum over all
bodies of different identity of
`G * (m_j / m_i) * (p_j - p_i) / (|p_j - p_i|² + ε²)` — dividing by the
updating body's own mass — with `G = 0.005` and `ε = 10`. -/
theorem calculateAcceleration_formula (o : Object) (objects : List Object) :
    (CalculateAcceleration o objects).1 =
      ((objects.filter (fun j => j.id ≠ o.id)).map (fun j =>
        gravitationalConstant * (j.mass / o.mass) * (j.x - o.x) /
          ((j.x - o.x) * (j.x - o.x) + (j.y - o.y) * (j.y - o.y) +
           softeningParameter * softeningParameter))).sum ∧
    (CalculateAcceleration o objects).2 =
      ((objects.filter (fun j => j.id ≠ o.id)).map (fun j =>
        gravitationalConstant * (j.mass / o.mass) * (j.y - o.y) /
          ((j.x - o.x) * (j.x - o.x) + (j.y - o.y) * (j.y - o.y) +
           softeningParameter * softeningParameter))).sum ∧
    gravitationalConstant = 0.005 ∧ softeningParameter = 10 := by
  have h : CalculateAcceleration o objects =
      (((objects.filter (fun j => j.id ≠ o.id)).map (fun j =>
        gravitationalConstant * (j.mass / o.mass) * (j.x - o.x) /
          ((j.x - o.x) * (j.x - o.x) + (j.y - o.y) * (j.y - o.y) +
           softeningParameter * softeningParameter))).sum,
       ((objects.filter (fun j => j.id ≠ o.id)).map (fun j =>
        gravitationalConstant * (j.mass / o.mass) * (j.y - o.y) /
          ((j.x - o.x) * (j.x - o.x) + (j.y - o.y) * (j.y - o.y) +
           softeningParameter * softeningParameter))).sum) := by
    unfold CalculateAcceleration
    have h0 := calcAccel_fold o objects (0, 0)
    simpa using h0
  refine ⟨by rw [h], by rw [h], rfl, by norm_num [softeningParameter]⟩

/-! ### C5: merge velocity and linear momentum -/

/-- C5 (amended): the merged velocity is the momentum-weighted average
`(m_i v_i + m_j v_j) / (m_i + m_j)` over the *pre-merge* combined mass, so
momentum with respect to that combined mass is conserved exactly.  (The
survivor's stored mass is then reset to `r_new²`, which need not equal
`m_i + m_j`, so `m_new · v_new` can differ from the pre-merge momentum.) -/
theorem mergeFrom_momentum_premass (o obj : Object) (h : o.mass + obj.mass ≠ 0) :
    (o.mass + obj.mass) * (MergeFrom o obj).velocityX =
      o.mass * o.velocityX + obj.mass * obj.velocityX ∧
    (o.mass + obj.mass) * (MergeFrom o obj).velocityY =
      o.mass * o.velocityY + obj.mass * obj.velocityY := by
  simp only [MergeFrom]
  constructor
  · field_simp
  · field_simp

/-- C5 witness: two unit masses, one moving at speed 1; the merged velocity
is 1/2 and momentum over the combined pre-merge mass 2 is conserved. -/
theorem mergeFrom_momentum_premass_witness :
    (oU1.mass + oU2.mass ≠ 0) ∧
    ((oU1.mass + oU2.mass) * (MergeFrom oU1 oU2).velocityX =
      oU1.mass * oU1.velocityX + oU2.mass * oU2.velocityX ∧
    (oU1.mass + oU2.mass) * (MergeFrom oU1 oU2).velocityY =
      oU1.mass * oU1.velocityY + oU2.mass * oU2.velocityY) :=
  ⟨by norm_num [oU1, oU2], mergeFrom_momentum_premass oU1 oU2 (by norm_num [oU1, oU2])⟩

/-- C5 counterexample: with the survivor's *stored* mass (reset to
`r_new² = 1`), momentum is not conserved: `m_new · v_new = 1/2` while the
pre-merge momentum is `1`. -/
theorem mergeFrom_momentum_stored_mass_cex :
    (MergeFrom oU1 oU2).mass * (MergeFrom oU1 oU2).velocityX ≠
      oU1.mass * oU1.velocityX + oU2.mass * oU2.velocityX := by
  simp [MergeFrom, oU1, oU2]
  norm_num

/-! ### C4: ejecta burst size -/

/-- C4 (amended): a merge calls `SpawnEjecta` with
`speed = impactSpeed + 1.0` and `count = 8 + int(speed)`, so the number of
particles spawned is `min 16 (8 + ⌊impactSpeed + 1⌋) = min 16 (9 + ⌊impactSpeed⌋)`
— one more than the claimed `min 16 (8 + ⌊impactSpeed⌋)` whenever the clamp
is not reached — and never more than 16. -/
theorem spawnEjecta_merge_count (w : World) (x y impact : ℝ) (h : 0 ≤ impact) :
    ((SpawnEjecta w x y (impact + 1) (8 + goInt (impact + 1))).ejecta.length : ℤ) =
      w.ejecta.length + min 16 (9 + ⌊impact⌋) ∧
    (SpawnEjecta w x y (impact + 1) (8 + goInt (impact + 1))).ejecta.length ≤
      w.ejecta.length + 16 := by
  have hf : goInt (impact + 1) = ⌊impact⌋ + 1 := by
    unfold goInt
    rw [if_pos (by linarith), Int.floor_add_one]
  have hfl : 0 ≤ ⌊impact⌋ := Int.floor_nonneg.mpr h
  have hlen : (SpawnEjecta w x y (impact + 1) (8 + goInt (impact + 1))).ejecta.length =
      w.ejecta.length +
        (if (8 + goInt (impact + 1)) > 16 then 16 else 8 + goInt (impact + 1)).toNat := by
    unfold SpawnEjecta
    simp
  rw [hlen, hf]
  constructor
  · push_cast
    split <;> omega
  · split <;> omega

/-- C4 witness: a merge with pre-impact relative speed 0 spawns
`min 16 9 = 9` particles. -/
theorem spawnEjecta_merge_count_witness :
    ((0 : ℝ) ≤ 0) ∧
    (((SpawnEjecta newWorld 0 0 ((0 : ℝ) + 1) (8 + goInt ((0 : ℝ) + 1))).ejecta.length : ℤ) =
      newWorld.ejecta.length + min 16 (9 + ⌊(0 : ℝ)⌋) ∧
    (SpawnEjecta newWorld 0 0 ((0 : ℝ) + 1) (8 + goInt ((0 : ℝ) + 1))).ejecta.length ≤
      newWorld.ejecta.length + 16) :=
  ⟨le_refl 0, spawnEjecta_merge_count newWorld 0 0 0 (le_refl 0)⟩

/-- Two overlapping unit bodies at rest at the same point, with merge mode
active: the single collision pair of a tick merges them. -/
def wPairMerge : World :=
  { objects := [{ id := 0, radius := 1, mass := 1 }, { id := 1, radius := 1, mass := 1 }]
    mergeOnCollision := true
    bounceOnParticleCollision := true
    restitution := 0.8 }

set_option maxHeartbeats 2000000 in
/-- C4 counterexample: the two merging bodies above have pre-impact relative
speed 0, so the claim predicts `min 16 (8 + ⌊0⌋) = 8` spawned particles, but
the code spawns 9 (it adds 1.0 to the relative speed before truncating). -/
theorem handleCollisions_ejecta_count_cex :
    (handleCollisions wPairMerge).ejecta.length = 9 ∧
    min (16 : ℤ) (8 + ⌊Real.sqrt ((0 : ℝ) * 0 + 0 * 0)⌋) = 8 := by
  constructor
  · unfold handleCollisions collisionScan wPairMerge
    norm_num [pairStep, CollideWith, MergeFrom, SpawnEjecta, goInt, RemoveObject, removeFirstId,
      Real.sqrt_zero, List.range_succ, List.range']
    decide
  · norm_num

/-! ### C7: FindObject scans in insertion order and returns the first hit -/

/-- The scan of `findLoop`, characterised in true-distance terms: provided
every threshold `r + radius` is positive, the loop returns none exactly
when no body is within range, and otherwise splits the list around the
first body within range of the query point. -/
lemma findLoop_spec (wx wy rr : ℝ) :
    ∀ l : List Object, (∀ o ∈ l, 0 < rr + (o.radius : ℝ)) →
      ((∀ o ∈ l,
          ¬ Real.sqrt ((o.x - wx) * (o.x - wx) + (o.y - wy) * (o.y - wy)) <
            rr + (o.radius : ℝ)) →
        findLoop wx wy rr l = none) ∧
      (∀ o, findLoop wx wy rr l = some o →
        ∃ pre post, l = pre ++ o :: post ∧
          Real.sqrt ((o.x - wx) * (o.x - wx) + (o.y - wy) * (o.y - wy)) <
            rr + (o.radius : ℝ) ∧
          ∀ b ∈ pre,
            ¬ Real.sqrt ((b.x - wx) * (b.x - wx) + (b.y - wy) * (b.y - wy)) <
              rr + (b.radius : ℝ)) := by
  intro l
  induction l with
  | nil =>
    intro _
    refine ⟨fun _ => rfl, fun o h => by simp [findLoop] at h⟩
  | cons a t ih =>
    intro hpos
    have hpa : 0 < rr + (a.radius : ℝ) := hpos a (List.mem_cons_self a t)
    have hiff : Real.sqrt ((a.x - wx) * (a.x - wx) + (a.y - wy) * (a.y - wy)) <
        rr + (a.radius : ℝ) ↔
        (a.x - wx) * (a.x - wx) + (a.y - wy) * (a.y - wy) <
          (rr + (a.radius : ℝ)) * (rr + (a.radius : ℝ)) := by
      rw [Real.sqrt_lt' hpa, sq]
    obtain ⟨ihn, ihs⟩ := ih (fun o ho => hpos o (List.mem_cons_of_mem _ ho))
    constructor
    · intro hall
      have hna := hall a (List.mem_cons_self a t)
      simp only [findLoop]
      rw [if_neg (fun hc => hna (hiff.mpr hc))]
      exact ihn (fun o ho => hall o (List.mem_cons_of_mem _ ho))
    · intro o ho
      simp only [findLoop] at ho
      by_cases hc : (a.x - wx) * (a.x - wx) + (a.y - wy) * (a.y - wy) <
          (rr + (a.radius : ℝ)) * (rr + (a.radius : ℝ))
      · rw [if_pos hc] at ho
        obtain rfl : a = o := Option.some.inj ho
        exact ⟨[], t, rfl, hiff.mpr hc, by simp⟩
      · rw [if_neg hc] at ho
        obtain ⟨pre, post, heq, hsat, hpre⟩ := ihs o ho
        refine ⟨a :: pre, post, by rw [heq, List.cons_append], hsat, ?_⟩
        intro b hb
        rcases List.mem_cons.mp hb with hb | hb
        · subst hb
          exact fun hs => hc (hiff.mp hs)
        · exact hpre b hb

/-- C7: `FindObject` scans the live collection in insertion order and
returns the first body whose distance to the query point is below
`queryRadius + radius`; it returns none when no body qualifies, and when
several qualify it returns the earliest-inserted one (every body before the
returned one fails the distance test), not the nearest. -/
theorem findObject_first_match (w : World) (wx wy : ℝ) (r : ℤ) (hr : 0 ≤ r)
    (hrad : ∀ o ∈ w.objects, 1 ≤ o.radius) :
    ((∀ o ∈ w.objects,
        ¬ Real.sqrt ((o.x - wx) * (o.x - wx) + (o.y - wy) * (o.y - wy)) <
          (r : ℝ) + (o.radius : ℝ)) →
      FindObject w wx wy r = none) ∧
    (∀ o, FindObject w wx wy r = some o →
      ∃ pre post, w.objects = pre ++ o :: post ∧
        Real.sqrt ((o.x - wx) * (o.x - wx) + (o.y - wy) * (o.y - wy)) <
          (r : ℝ) + (o.radius : ℝ) ∧
        ∀ b ∈ pre,
          ¬ Real.sqrt ((b.x - wx) * (b.x - wx) + (b.y - wy) * (b.y - wy)) <
            (r : ℝ) + (b.radius : ℝ)) := by
  have hpos : ∀ o ∈ w.objects, 0 < (r : ℝ) + (o.radius : ℝ) := by
    intro o ho
    have h1 : (1 : ℝ) ≤ (o.radius : ℝ) := by exact_mod_cast hrad o ho
    have h0 : (0 : ℝ) ≤ (r : ℝ) := by exact_mod_cast hr
    linarith
  exact findLoop_spec wx wy (r : ℝ) w.objects hpos

/-- A world with two bodies both in range of the query point (0.5, 0). -/
def wFind : World :=
  { objects := [{ id := 0, radius := 1, mass := 1 }, { id := 1, x := 1, radius := 1, mass := 1 }]
    bounceOnParticleCollision := true
    restitution := 0.8 }

/-- C7 witness: both stored bodies are within range of the query, and the
earliest-inserted one (id 0) is returned. -/
theorem findObject_first_match_witness :
    ((0 : ℤ) ≤ 1 ∧ ∀ o ∈ wFind.objects, 1 ≤ o.radius) ∧
    FindObject wFind 0.5 0 1 = some { id := 0, radius := 1, mass := 1 } ∧
    ((∀ o ∈ wFind.objects,
        ¬ Real.sqrt ((o.x - 0.5) * (o.x - 0.5) + (o.y - 0) * (o.y - 0)) <
          ((1 : ℤ) : ℝ) + (o.radius : ℝ)) →
      FindObject wFind 0.5 0 1 = none) ∧
    (∀ o, FindObject wFind 0.5 0 1 = some o →
      ∃ pre post, wFind.objects = pre ++ o :: post ∧
        Real.sqrt ((o.x - 0.5) * (o.x - 0.5) + (o.y - 0) * (o.y - 0)) <
          ((1 : ℤ) : ℝ) + (o.radius : ℝ) ∧
        ∀ b ∈ pre,
          ¬ Real.sqrt ((b.x - 0.5) * (b.x - 0.5) + (b.y - 0) * (b.y - 0)) <
            ((1 : ℤ) : ℝ) + (b.radius : ℝ)) :=
  ⟨⟨by norm_num, by intro o ho; simp [wFind] at ho; rcases ho with h | h <;> simp [h]⟩,
   by norm_num [FindObject, findLoop, wFind],
   (findObject_first_match wFind 0.5 0 1 (by norm_num)
     (by intro o ho; simp [wFind] at ho; rcases ho with h | h <;> simp [h])).1,
   (findObject_first_match wFind 0.5 0 1 (by norm_num)
     (by intro o ho; simp [wFind] at ho; rcases ho with h | h <;> simp [h])).2⟩

/-! ### C2: pinned bodies and the both-pinned collision branch -/

/-- Two overlapping pinned bodies; the second one is moving left. -/
def wPinnedPair : World :=
  { objects := [{ id := 0, x := 800, y := 600, radius := 1, mass := 1, pinned := true },
                { id := 1, x := 801, y := 600, radius := 1, mass := 1, velocityX := -1,
                  pinned := true }]
    bounceOnParticleCollision := true
    restitution := 0.8 }

set_option maxHeartbeats 3000000 in
/-- C2 (code bug): both bodies of `wPinnedPair` are pinned, yet one
`StepPhysics` call moves the second from x = 801 to x = 802 (the full
overlap) and changes its velocity from -1 to 0.8: the separation branch
`if o.pinned` of `CollideWith` never tests `obj.pinned`, so for a
both-pinned overlapping pair the second pinned body is displaced and
receives the impulse, contradicting the claimed invariant. -/
theorem stepPhysics_moves_overlapping_pinned_pair :
    (wPinnedPair.objects.map (fun o => o.pinned)) = [true, true] ∧
    ((StepPhysics wPinnedPair).objects.map (fun o => (o.x, o.velocityX))) =
      [(800, 0), (802, 0.8)] := by
  constructor
  · norm_num [wPinnedPair]
  · unfold StepPhysics handleCollisions collisionScan wPinnedPair
    norm_num [pairStep, CollideWith, UpdatePositionVerlet, UpdateVelocityVerlet,
      CalculateAcceleration, UpdateRotation, cullDistantObjects, updateEjecta,
      BounceOnScreenCollision, RemoveObject, removeFirstId, Real.sqrt_one,
      List.range_succ, List.range']

/-! ### C10: double absorption of one body within a single tick -/

/-- Three mutually overlapping unit bodies at the same point, merge mode
active. -/
def wTripleMerge : World :=
  { objects := [{ id := 0, radius := 1, mass := 1 },
                { id := 1, radius := 1, mass := 1 },
                { id := 2, radius := 1, mass := 1 }]
    mergeOnCollision := true
    bounceOnParticleCollision := true
    restitution := 0.8 }

set_option maxHeartbeats 6000000 in
/-- C10: on `wTripleMerge` the single-tick pairwise scan merges pair (0,1),
pair (0,2) and then pair (1,2) — so body 2 is absorbed by the two distinct
survivors 0 and 1, its mass and momentum entering both `MergeFrom` calls —
and the deferred-removal list is `[1, 2, 2]` with body 2 listed twice.
Applying the removals, the duplicate's second `RemoveObject` finds no
remaining match and is a no-op, leaving exactly `[0]`: body 2 is removed
exactly once and the store ends the tick without duplicate identities. -/
theorem handleCollisions_double_absorb_dedup :
    ((collisionScan wTripleMerge.restitution wTripleMerge.mergeOnCollision wTripleMerge).2.map
      (fun o => o.id)) = [1, 2, 2] ∧
    ((handleCollisions wTripleMerge).objects.map (fun o => o.id)) = [0] := by
  constructor
  · unfold collisionScan wTripleMerge
    norm_num [pairStep, CollideWith, MergeFrom, SpawnEjecta, goInt,
      Real.sqrt_zero, List.range_succ, List.range',
      (show ((2 : ℤ).toNat = 2) from rfl), (show Nat.sqrt 2 = 1 by norm_num)]
  · unfold handleCollisions collisionScan wTripleMerge
    norm_num [pairStep, CollideWith, MergeFrom, SpawnEjecta, goInt, RemoveObject, removeFirstId,
      Real.sqrt_zero, List.range_succ, List.range',
      (show ((2 : ℤ).toNat = 2) from rfl), (show Nat.sqrt 2 = 1 by norm_num)]

/-! ### C8: removals are deferred until after the full pairwise scan -/

/-- `CollideWith` never changes the first body's identity. -/
lemma collideWith_fst_id (o obj : Object) (r : ℝ) (m : Bool) :
    (CollideWith o obj r m).1.id = o.id := by
  simp only [CollideWith]
  split_ifs <;> rfl

/-- `CollideWith` never changes the second body's identity. -/
lemma collideWith_snd_id (o obj : Object) (r : ℝ) (m : Bool) :
    (CollideWith o obj r m).2.1.id = obj.id := by
  simp only [CollideWith]
  split_ifs <;> rfl

/-- `MergeFrom` keeps the absorbing body's identity. -/
lemma mergeFrom_id (o obj : Object) : (MergeFrom o obj).id = o.id := rfl

/-- Writing an object with the same identity as the one stored at a
position leaves the identity list unchanged. -/
lemma map_id_set : ∀ (l : List Object) (k : ℕ) (o o' : Object),
    l[k]? = some o → o'.id = o.id →
    (l.set k o').map (fun b => b.id) = l.map (fun b => b.id)
  | [], k, o, o', h, _ => by simp at h
  | a :: t, 0, o, o', h, hid => by
    obtain rfl : a = o := by simpa using h
    simp [hid]
  | a :: t, k + 1, o, o', h, hid => by
    rw [List.getElem?_cons_succ] at h
    simp [map_id_set t k o o' h hid]

/-- One pair interaction of the collision scan preserves the identity list
of the live collection: bodies are mutated in place and never removed. -/
lemma pairStep_map_id (r : ℝ) (m : Bool) (s : World × List Object) (i j : ℕ) :
    ((pairStep r m s i j).1.objects.map (fun o => o.id)) =
      s.1.objects.map (fun o => o.id) := by
  unfold pairStep
  cases h1 : s.1.objects[i]? with
  | none => rfl
  | some o =>
    cases h2 : s.1.objects[j]? with
    | none => rfl
    | some obj =>
      have hilt : i < s.1.objects.length := by
        obtain ⟨hl, _⟩ := List.getElem?_eq_some.mp h1
        exact hl
      have hset1 : ((s.1.objects.set i (CollideWith o obj r m).1).map (fun b => b.id)) =
          s.1.objects.map (fun b => b.id) :=
        map_id_set _ i o _ h1 (collideWith_fst_id o obj r m)
      have hj2 : (s.1.objects.set i (CollideWith o obj r m).1)[j]? = some obj ∨
          (i = j ∧ (s.1.objects.set i (CollideWith o obj r m).1)[j]? =
            some (CollideWith o obj r m).1) := by
        by_cases hij : i = j
        · right
          exact ⟨hij, by rw [← hij]; exact List.getElem?_set_eq_of_lt _ hilt⟩
        · left
          rw [List.getElem?_set_ne hij]
          exact h2
      have hset2 : (((s.1.objects.set i (CollideWith o obj r m).1).set j
            (CollideWith o obj r m).2.1).map (fun b => b.id)) =
          s.1.objects.map (fun b => b.id) := by
        rcases hj2 with hj2 | ⟨hij, hj2⟩
        · rw [map_id_set _ j obj _ hj2 (collideWith_snd_id o obj r m), hset1]
        · have hoo : o = obj := by
            rw [hij] at h1
            rw [h1] at h2
            exact Option.some.inj h2
          rw [map_id_set _ j (CollideWith o obj r m).1 _ hj2
              (by rw [collideWith_snd_id o obj r m, collideWith_fst_id o obj r m, hoo]),
            hset1]
      dsimp only
      split
      · -- merge branch: a third write at position i, ejecta spawned, no removal
        unfold SpawnEjecta
        dsimp only
        by_cases hij : i = j
        · have hoo : o = obj := by
            rw [hij] at h1
            rw [h1] at h2
            exact Option.some.inj h2
          have hi3 : (((s.1.objects.set i (CollideWith o obj r m).1).set j
                (CollideWith o obj r m).2.1))[i]? = some (CollideWith o obj r m).2.1 := by
            rw [hij]
            exact List.getElem?_set_eq_of_lt _ (by simp only [List.length_set]; omega)
          rw [map_id_set _ i _ _ hi3 (by
              rw [mergeFrom_id, collideWith_fst_id o obj r m,
                collideWith_snd_id o obj r m, hoo]), hset2]
        · have hi3 : (((s.1.objects.set i (CollideWith o obj r m).1).set j
                (CollideWith o obj r m).2.1))[i]? = some (CollideWith o obj r m).1 := by
            rw [List.getElem?_set_ne (fun h => hij h.symm), List.getElem?_set_eq_of_lt _ hilt]
          rw [map_id_set _ i _ _ hi3 (by rw [mergeFrom_id]), hset2]
      · exact hset2

/-- Folding pair interactions over any inner index list preserves the
identity list. -/
lemma innerFold_map_id (r : ℝ) (m : Bool) :
    ∀ (js : List ℕ) (i : ℕ) (s : World × List Object),
      (((js.foldl (fun s j => pairStep r m s i j) s).1.objects.map (fun o => o.id)) =
        s.1.objects.map (fun o => o.id))
  | [], _, _ => rfl
  | j :: js, i, s => by
    rw [List.foldl_cons, innerFold_map_id r m js i (pairStep r m s i j),
      pairStep_map_id r m s i j]

/-- Folding the outer scan loop over any outer index list preserves the
identity list. -/
lemma outerFold_map_id (r : ℝ) (m : Bool) (n : ℕ) :
    ∀ (is : List ℕ) (s : World × List Object),
      ((is.foldl (fun s i =>
          (List.range' (i + 1) (n - (i + 1))).foldl (fun s j => pairStep r m s i j) s) s).1.objects.map
        (fun o => o.id)) = s.1.objects.map (fun o => o.id)
  | [], _ => rfl
  | i :: is, s => by
    rw [List.foldl_cons, outerFold_map_id r m n is _, innerFold_map_id r m _ i s]

/-- The full collision scan preserves the identity list of the live
collection: no body is removed while the pairwise scan is in progress. -/
lemma collisionScan_map_id (r : ℝ) (m : Bool) (w : World) :
    ((collisionScan r m w).1.objects.map (fun o => o.id)) =
      w.objects.map (fun o => o.id) := by
  unfold collisionScan
  exact outerFold_map_id r m w.objects.length (List.range w.objects.length) (w, [])

/-- C8: during the collision scan of one tick no body is removed — the scan
result carries exactly the identity list of the pre-merge snapshot, in
order, so a body slated for absorption is still present (and compared
against) in every later pair of the same tick — and `handleCollisions`
applies all deferred removals only after the scan, by folding
`RemoveObject` over the collected list. -/
theorem handleCollisions_deferred_removal (w : World) :
    ((collisionScan w.restitution w.mergeOnCollision w).1.objects.map (fun o => o.id)) =
      w.objects.map (fun o => o.id) ∧
    handleCollisions w =
      (collisionScan w.restitution w.mergeOnCollision w).2.foldl RemoveObject
        (collisionScan w.restitution w.mergeOnCollision w).1 :=
  ⟨collisionScan_map_id w.restitution w.mergeOnCollision w, rfl⟩

/-! ### C6: distance culling -/

/-- `updateEjecta` never touches the object list. -/
lemma updateEjecta_objects (w : World) : (updateEjecta w).objects = w.objects := rfl

/-- Under unique identities, removing the first id match is the same as
filtering that id out. -/
lemma removeFirstId_eq_filter :
    ∀ (l : List Object), ((l.map (fun o => o.id)).Nodup) → ∀ i : ℕ,
      removeFirstId l i = l.filter (fun o => o.id ≠ i)
  | [], _, i => rfl
  | a :: t, h, i => by
    simp only [List.map_cons, List.nodup_cons] at h
    obtain ⟨hna, hnd⟩ := h
    by_cases hai : a.id = i
    · rw [removeFirstId, if_pos hai, List.filter_cons, if_neg (by simp [hai])]
      refine (List.filter_eq_self.mpr ?_).symm
      intro b hb
      simp only [decide_eq_true_eq]
      intro hbi
      exact hna (by rw [hai, ← hbi]; exact List.mem_map.mpr ⟨b, hb, rfl⟩)
    · rw [removeFirstId, if_neg hai, List.filter_cons, if_pos (by simp [hai]),
        removeFirstId_eq_filter t hnd i]

/-- Folding `RemoveObject` over a world acts on the object list alone. -/
lemma foldl_removeObject_objects :
    ∀ (rs : List Object) (w : World),
      (rs.foldl RemoveObject w).objects =
        rs.foldl (fun l o => removeFirstId l o.id) w.objects
  | [], _ => rfl
  | r :: rs, w => by
    rw [List.foldl_cons, List.foldl_cons, foldl_removeObject_objects rs _]
    rfl

/-- Under unique identities, applying a batch of deferred removals filters
out exactly the batch's identities. -/
lemma foldl_remove_eq_filter :
    ∀ (rs : List Object) (l : List Object), ((l.map (fun o => o.id)).Nodup) →
      rs.foldl (fun acc o => removeFirstId acc o.id) l =
        l.filter (fun o => decide (o.id ∉ rs.map (fun b => b.id)))
  | [], l, _ => by simp
  | r :: rs, l, h => by
    rw [List.foldl_cons, removeFirstId_eq_filter l h r.id]
    have hnd2 : (((l.filter (fun o => o.id ≠ r.id)).map (fun o => o.id)).Nodup) :=
      h.sublist ((List.filter_sublist l).map _)
    rw [foldl_remove_eq_filter rs _ hnd2, List.filter_filter]
    refine List.filter_congr ?_
    intro o _
    simp only [List.map_cons, List.mem_cons, decide_not, Bool.not_eq_true', decide_eq_false_iff_not,
      not_or, Bool.and_eq_true, decide_eq_true_eq]
    rcases Decidable.em (o.id ∈ rs.map fun b => b.id) with hm | hm <;>
      rcases Decidable.em (o.id = r.id) with he | he <;>
        simp [hm, he]

/-- Under unique identities, `cullDistantObjects` keeps exactly the bodies
that are pinned or within the cull distance of the screen centre. -/
lemma cull_spec (w : World) (h : ((w.objects.map (fun o => o.id)).Nodup)) :
    (cullDistantObjects w).objects = w.objects.filter (fun o =>
      o.pinned || !decide ((o.x - screenWidth / 2) * (o.x - screenWidth / 2) +
        (o.y - screenHeight / 2) * (o.y - screenHeight / 2) >
        cullDistance * cullDistance)) := by
  unfold cullDistantObjects
  dsimp only
  rw [foldl_removeObject_objects, foldl_remove_eq_filter _ _ h]
  refine List.filter_congr ?_
  intro o ho
  have hiff : o.id ∈ ((w.objects.filter (fun b =>
      !b.pinned && decide ((b.x - screenWidth / 2) * (b.x - screenWidth / 2) +
        (b.y - screenHeight / 2) * (b.y - screenHeight / 2) >
        cullDistance * cullDistance))).map (fun b => b.id)) ↔
      (!o.pinned && decide ((o.x - screenWidth / 2) * (o.x - screenWidth / 2) +
        (o.y - screenHeight / 2) * (o.y - screenHeight / 2) >
        cullDistance * cullDistance)) = true := by
    constructor
    · intro hm
      obtain ⟨b, hb, hid⟩ := List.mem_map.mp hm
      obtain ⟨hbl, hpb⟩ := List.mem_filter.mp hb
      have hbo : b = o := List.inj_on_of_nodup_map h hbl ho hid
      rw [← hbo]
      exact hpb
    · intro hp
      exact List.mem_map.mpr ⟨o, List.mem_filter.mpr ⟨ho, hp⟩, rfl⟩
  rcases hpin : o.pinned with _ | _
  · rcases hdec : decide ((o.x - screenWidth / 2) * (o.x - screenWidth / 2) +
        (o.y - screenHeight / 2) * (o.y - screenHeight / 2) >
        cullDistance * cullDistance) with _ | _
    · have hnm : o.id ∉ ((w.objects.filter (fun b =>
          !b.pinned && decide ((b.x - screenWidth / 2) * (b.x - screenWidth / 2) +
            (b.y - screenHeight / 2) * (b.y - screenHeight / 2) >
            cullDistance * cullDistance))).map (fun b => b.id)) := by
        intro hm
        have hc := hiff.mp hm
        rw [hpin, hdec] at hc
        simp at hc
      simp [hnm, hpin, hdec]
    · have hm : o.id ∈ ((w.objects.filter (fun b =>
          !b.pinned && decide ((b.x - screenWidth / 2) * (b.x - screenWidth / 2) +
            (b.y - screenHeight / 2) * (b.y - screenHeight / 2) >
            cullDistance * cullDistance))).map (fun b => b.id)) := by
        refine hiff.mpr ?_
        rw [hpin, hdec]
        rfl
      simp [hm, hpin, hdec]
  · have hnm : o.id ∉ ((w.objects.filter (fun b =>
        !b.pinned && decide ((b.x - screenWidth / 2) * (b.x - screenWidth / 2) +
          (b.y - screenHeight / 2) * (b.y - screenHeight / 2) >
          cullDistance * cullDistance))).map (fun b => b.id)) := by
      intro hm
      have hc := hiff.mp hm
      rw [hpin] at hc
      simp at hc
    simp [hnm, hpin]

/-- Removing a first match yields a sublist. -/
lemma removeFirstId_sublist : ∀ (l : List Object) (i : ℕ),
    List.Sublist (removeFirstId l i) l
  | [], _ => List.Sublist.refl []
  | a :: t, i => by
    rw [removeFirstId]
    by_cases hai : a.id = i
    · rw [if_pos hai]
      exact List.sublist_cons_self a t
    · rw [if_neg hai]
      exact (removeFirstId_sublist t i).cons₂ a

/-- A batch of removals yields a sublist of the original object list. -/
lemma foldl_removeObject_sublist : ∀ (rs : List Object) (w : World),
    List.Sublist ((rs.foldl RemoveObject w).objects) w.objects
  | [], _ => List.Sublist.refl _
  | r :: rs, w => by
    rw [List.foldl_cons]
    exact (foldl_removeObject_sublist rs (RemoveObject w r)).trans
      (removeFirstId_sublist w.objects r.id)

/-- Mapping an identity-preserving function over a list leaves the identity
list unchanged. -/
lemma map_id_map (f : Object → Object) (hf : ∀ o, (f o).id = o.id) (l : List Object) :
    ((l.map f).map (fun o => o.id)) = l.map (fun o => o.id) := by
  rw [List.map_map]
  exact List.map_congr_left (fun o _ => hf o)

/-- The identity list survives the zip of an identity-preserving update with
per-body data computed from the same list. -/
lemma zipWith_map_self_id (f : Object → Object) (hf : ∀ o, (f o).id = o.id)
    (g : Object → ℝ × ℝ) (h : Object → ℝ × ℝ → Object) (hh : ∀ o a, (h o a).id = o.id) :
    ∀ l : List Object,
      ((List.zipWith h (l.map f) ((l.map f).map g)).map (fun o => o.id)) =
        l.map (fun o => o.id)
  | [] => rfl
  | a :: t => by
    simp only [List.map_cons, List.zipWith_cons_cons, hh, hf,
      zipWith_map_self_id f hf g h hh t]

/-- A list equality gives a sublist. -/
lemma sublist_of_eq {l1 l2 : List ℕ} (h : l1 = l2) : List.Sublist l1 l2 := by
  rw [h]

/-- `handleCollisions` can only shrink the identity list (scan preserves it,
removals select a sublist). -/
lemma handleCollisions_id_sublist (w : World) :
    List.Sublist ((handleCollisions w).objects.map (fun o => o.id))
      (w.objects.map (fun o => o.id)) := by
  unfold handleCollisions
  dsimp only
  rw [← collisionScan_map_id w.restitution w.mergeOnCollision w]
  exact (foldl_removeObject_sublist _ _).map _

/-- `UpdateRotation` only touches the cosmetic fields. -/
lemma updateRotation_fields (o : Object) :
    (UpdateRotation o).x = o.x ∧ (UpdateRotation o).y = o.y ∧
    (UpdateRotation o).pinned = o.pinned ∧ (UpdateRotation o).id = o.id := by
  simp only [UpdateRotation]
  split_ifs <;> exact ⟨rfl, rfl, rfl, rfl⟩

/-- `BounceOnScreenCollision` keeps the body's identity. -/
lemma bounce_fields (o : Object) :
    (BounceOnScreenCollision o).id = o.id := by
  simp only [BounceOnScreenCollision]
  split_ifs <;> rfl

/-- Shape of one physics step: there is an intermediate world `v` — the
state after integration, collisions and optional screen bounce, whose
identity list is a sublist of the input's — such that the final object list
is the culling of `v` followed by the per-body rotation update. -/
lemma stepPhysics_shape (w : World) :
    ∃ v : World,
      List.Sublist (v.objects.map (fun o => o.id)) (w.objects.map (fun o => o.id)) ∧
      (StepPhysics w).objects = (cullDistantObjects v).objects.map UpdateRotation := by
  unfold StepPhysics
  dsimp only
  refine ⟨_, ?_, rfl⟩
  have hbseq : ∀ l : List Object,
      ((l.map (fun o => if o.pinned then o else BounceOnScreenCollision o)).map
        (fun o => o.id)) = l.map (fun o => o.id) :=
    fun l => map_id_map _ (fun o => by
      by_cases hp : o.pinned
      · rw [if_pos hp]
      · rw [if_neg hp]
        exact bounce_fields o) l
  split_ifs <;> try rw [hbseq]
  all_goals
    first
      | exact sublist_of_eq (zipWith_map_self_id _
          (fun o => by split <;> rfl) _ _ (fun o a => by split <;> rfl) w.objects)
      | exact (handleCollisions_id_sublist _).trans
          (sublist_of_eq (zipWith_map_self_id _
            (fun o => by split <;> rfl) _ _ (fun o a => by split <;> rfl) w.objects))

/-- A single non-fixed body at rest beyond the cull distance from the
screen centre (800, 600). -/
def wFarBody : World :=
  { objects := [{ id := 0, x := 6000, y := 600, radius := 1, mass := 1 }]
    bounceOnParticleCollision := true
    restitution := 0.8 }

/-- C6: the culling pass removes exactly the non-pinned bodies whose
squared distance from the screen centre `(screenWidth/2, screenHeight/2) =
(800, 600)` exceeds `cullDistance² = 5000²` (silently — nothing else of the
world changes); consequently after any `StepPhysics` call every remaining
non-pinned body satisfies the squared-distance bound, and a body placed at
rest beyond the cull distance is gone from the store after one step. -/
theorem stepPhysics_cull_bound :
    screenWidth / 2 = 800 ∧ screenHeight / 2 = 600 ∧ cullDistance = 5000 ∧
    (∀ w : World, ((w.objects.map (fun o => o.id)).Nodup) →
      (cullDistantObjects w).objects = w.objects.filter (fun o =>
        o.pinned || !decide ((o.x - screenWidth / 2) * (o.x - screenWidth / 2) +
          (o.y - screenHeight / 2) * (o.y - screenHeight / 2) >
          cullDistance * cullDistance))) ∧
    (∀ w : World, ((w.objects.map (fun o => o.id)).Nodup) →
      ∀ o ∈ (StepPhysics w).objects, o.pinned = false →
        (o.x - screenWidth / 2) * (o.x - screenWidth / 2) +
          (o.y - screenHeight / 2) * (o.y - screenHeight / 2) ≤
          cullDistance * cullDistance) ∧
    (StepPhysics wFarBody).objects = [] := by
  refine ⟨by norm_num [screenWidth], by norm_num [screenHeight], rfl, cull_spec, ?_, ?_⟩
  · intro w hw o ho hp
    obtain ⟨v, hsub, hobj⟩ := stepPhysics_shape w
    rw [hobj] at ho
    obtain ⟨b, hb, rfl⟩ := List.mem_map.mp ho
    have hnv : ((v.objects.map (fun o => o.id)).Nodup) := hw.sublist hsub
    rw [cull_spec v hnv] at hb
    obtain ⟨hbl, hpred⟩ := List.mem_filter.mp hb
    obtain ⟨hx, hy, hpin, _⟩ := updateRotation_fields b
    rw [hx, hy]
    rw [hpin] at hp
    rw [hp] at hpred
    simp only [Bool.false_or, Bool.not_eq_true', decide_eq_false_iff_not, not_lt] at hpred
    exact hpred
  · unfold StepPhysics handleCollisions collisionScan cullDistantObjects updateEjecta wFarBody
    norm_num [pairStep, CollideWith, UpdatePositionVerlet, UpdateVelocityVerlet,
      CalculateAcceleration, UpdateRotation, BounceOnScreenCollision, RemoveObject,
      removeFirstId, List.range_succ, List.range', screenWidth, screenHeight, cullDistance]

/-- C6 witness: a concrete two-body world with distinct identities; the
culling characterisation applies to it. -/
theorem stepPhysics_cull_bound_witness :
    ((wFind.objects.map (fun o => o.id)).Nodup) ∧
    ((cullDistantObjects wFind).objects = wFind.objects.filter (fun o =>
      o.pinned || !decide ((o.x - screenWidth / 2) * (o.x - screenWidth / 2) +
        (o.y - screenHeight / 2) * (o.y - screenHeight / 2) >
        cullDistance * cullDistance))) :=
  ⟨by simp [wFind], stepPhysics_cull_bound.2.2.2.1 wFind (by simp [wFind])⟩

end Gravity
